import Mathlib

/-!
Verification of the cross-parser gate tools (`tools/` directory): the
normalization / comparison / policy-evaluation pipeline of
`msg_diff_harness.py`, `baseline_gate.py`, `semantic_gate.py`,
`eml_semantic_gate.py`, `warning_gate.py` and `pst_semantic_gate.py`.

Each Python function that carries design content is embedded as an
executable Lean definition; values that Python represents dynamically
(dict fields that may be `None`, a string or an int) are embedded as an
explicit sum type.  Machine arithmetic: the tolerance expressions
`int(bv * 0.02)`, `int(bv * 0.05)`, `int(bv * 0.2)` are embedded as
truncated integer division `Int.tdiv (bv * k) 100`, which agrees with the
Python float computation for every integer `bv` of realistic magnitude
(the float product only diverges from the exact value beyond ~2^52).
-/

/-! ## Field values and result records (`msg_diff_harness.py`)

A `ResultRecord` as consumed by `baseline_diff` is a Python dict; the
comparator only ever reads the eight compared fields, each of which is
`None`, a string or an int.  `RR.get` embeds `dict.get(field)` restricted
to those fields (any other key yields `None`, as `dict.get` does). -/

inductive FieldVal where
  | pyNone : FieldVal
  | vStr : String → FieldVal
  | vInt : Int → FieldVal
deriving DecidableEq

structure RR where
  subject : FieldVal
  fromF : FieldVal
  toF : FieldVal
  recipient_count : FieldVal
  attachment_count : FieldVal
  first_recipient_email : FieldVal
  body_len : FieldVal
  html_len : FieldVal
deriving DecidableEq

def RR.get (r : RR) (field : String) : FieldVal :=
  if field = "subject" then r.subject
  else if field = "from" then r.fromF
  else if field = "to" then r.toF
  else if field = "recipient_count" then r.recipient_count
  else if field = "attachment_count" then r.attachment_count
  else if field = "first_recipient_email" then r.first_recipient_email
  else if field = "body_len" then r.body_len
  else if field = "html_len" then r.html_len
  else FieldVal.pyNone

/-- The fixed field list iterated by `baseline_diff` (and `compare`). -/
def fieldsList : List String :=
  ["subject", "from", "to", "recipient_count", "attachment_count",
   "first_recipient_email", "body_len", "html_len"]

/-- `_severity` from `msg_diff_harness.py`. -/
def severityOfField (field : String) : String :=
  if field ∈ (["subject", "recipient_count", "attachment_count",
               "first_recipient_email"] : List String) then "high"
  else if field ∈ (["from", "to"] : List String) then "medium"
  else if field ∈ (["body_len", "html_len"] : List String) then "medium"
  else "low"

/-- `max(128, int((bv or 0) * 0.02))` — the `body_len` tolerance in
`baseline_diff` (and `_body_tol` of `semantic_gate.py`), for integer `bv`. -/
def bodyTol (bv : Int) : Int := max 128 (Int.tdiv (bv * 2) 100)

/-- `max(4096, int((bv or 0) * 0.05))` — the `html_len` tolerance in
`baseline_diff` (and `_html_tol` of `semantic_gate.py`), for integer `bv`. -/
def htmlTol (bv : Int) : Int := max 4096 (Int.tdiv (bv * 5) 100)

/-- `max(64, int(expected_len * 0.2))` — `_body_tol` of
`eml_semantic_gate.py` (the plain-text-mail comparator). -/
def emlBodyTol (n : Int) : Int := max 64 (Int.tdiv (n * 20) 100)

/-- `isinstance(bv, int) and isinstance(rv, int) and abs(bv - rv) <= tol`. -/
def lenWithin (tol : Int → Int) : FieldVal → FieldVal → Bool
  | FieldVal.vInt a, FieldVal.vInt b => decide (((a - b).natAbs : Int) ≤ tol a)
  | _, _ => false

/-- An `Issue` value slot: field-level issues carry a `FieldVal`; the
record-level issues of `baseline_diff` carry `None` on the missing side and
the whole (possibly empty) record dict on the other. -/
inductive IVal where
  | pyNone : IVal
  | fv : FieldVal → IVal
  | recV : Option RR → IVal
deriving DecidableEq

structure Issue where
  field : String
  severity : String
  baseline : IVal
  actual : IVal
  note : String
deriving DecidableEq

/-- The per-field body of the `for field in fields` loop of
`baseline_diff`: `continue` on equality, `continue` inside the
tolerance-band guards, otherwise append one issue. -/
def fieldIssue (b r : RR) (field : String) : List Issue :=
  if b.get field = r.get field then []
  else if field = "body_len" && lenWithin bodyTol (b.get field) (r.get field) then []
  else if field = "html_len" && lenWithin htmlTol (b.get field) (r.get field) then []
  else [⟨field, severityOfField field, IVal.fv (b.get field), IVal.fv (r.get field), ""⟩]

/-- The issue list `baseline_diff` builds for one file and one
non-baseline parser: `base`/`row` are `base_data.get(f, {})` and
`pdata.get(f, {})`, with `none` standing for the missing / empty dict. -/
def pairIssues (base row : Option RR) : List Issue :=
  match base with
  | none => [⟨"parser", "high", IVal.pyNone, IVal.recV row, "missing baseline row"⟩]
  | some b =>
    match row with
    | none => [⟨"parser", "high", IVal.recV (some b), IVal.pyNone, "missing comparator row"⟩]
    | some r => fieldsList.flatMap (fieldIssue b r)

/-- `baseline_diff`: `parsers` is the (insertion-ordered) parser map, each
parser giving an `OracleResultSet` as a lookup from file to record. -/
def baselineDiff (files : List String) (parsers : List (String × (String → Option RR)))
    (baseline : String) : List (String × List (String × List Issue)) :=
  let baseData : String → Option RR :=
    ((parsers.find? (fun p => p.1 = baseline)).map Prod.snd).getD (fun _ => none)
  files.map (fun f =>
    (f, (parsers.filter (fun p => p.1 ≠ baseline)).map
          (fun p => (p.1, pairIssues (baseData f) (p.2 f)))))

/-! ## Baseline deviation gate (`baseline_gate.py`)

An allow-rule constraint is absent (`none`, key missing from the JSON
rule) or present with a string value; Python's truthiness test
`rule.get(k)` treats a present-but-empty string like an absent key. -/

structure AllowRule where
  parser : Option String
  field : Option String
  severity : Option String
deriving DecidableEq

/-- `rule.get(k) and rule[k] != v` — the per-constraint `continue` test of
`_allowed`: `true` means this constraint rejects the rule for this issue. -/
def constraintBlocks (c : Option String) (v : String) : Bool :=
  match c with
  | none => false
  | some s => s ≠ "" && s ≠ v

/-- `_allowed(issue, parser_name, allow_rules)`: first rule surviving all
three constraint tests wins; no rule left means not allowed. -/
def allowedBy (issue : Issue) (parserName : String) : List AllowRule → Bool
  | [] => false
  | rule :: rest =>
    if constraintBlocks rule.parser parserName then allowedBy issue parserName rest
    else if constraintBlocks rule.field issue.field then allowedBy issue parserName rest
    else if constraintBlocks rule.severity issue.severity then allowedBy issue parserName rest
    else true

/-- The two `continue` filters of the violation loop in `baseline_gate.main`:
an issue survives iff its severity is in `fail_on` and no allow rule
matches it. -/
def issueViolates (failOn : List String) (rules : List AllowRule)
    (parserName : String) (issue : Issue) : Bool :=
  issue.severity ∈ failOn && !allowedBy issue parserName rules

/-- Python `str()` of an issue value slot, as interpolated into the
violation line (record dicts render via their `repr`; the exact rendering
of a dict is irrelevant to the gate's logic). -/
def showIVal : IVal → String
  | IVal.pyNone => "None"
  | IVal.fv FieldVal.pyNone => "None"
  | IVal.fv (FieldVal.vStr s) => s
  | IVal.fv (FieldVal.vInt n) => toString n
  | IVal.recV none => "\x7b\x7d"
  | IVal.recV (some _) => "\x7b...\x7d"

/-- One rendered violation line of `baseline_gate.main` (`name` is the
basename of the file). -/
def renderViolation (name parserName : String) (issue : Issue) : String :=
  "[" ++ name ++ "] [" ++ parserName ++ "] [" ++ issue.severity ++ "] " ++
    issue.field ++ " baseline=" ++ showIVal issue.baseline ++
    " actual=" ++ showIVal issue.actual

/-- The violation list of `baseline_gate.main`, walking the
`file → parser → issues` diff structure in order. -/
def baselineViolations (failOn : List String) (rules : List AllowRule)
    (diff : List (String × List (String × List Issue))) : List String :=
  diff.flatMap (fun fp =>
    fp.2.flatMap (fun pi =>
      pi.2.filterMap (fun issue =>
        if issueViolates failOn rules pi.1 issue then
          some (renderViolation fp.1 pi.1 issue)
        else none)))

/-- `baseline_gate.main` exit status: `1` iff any violation, else `0`. -/
def baselineGateExit (failOn : List String) (rules : List AllowRule)
    (diff : List (String × List (String × List Issue))) : Nat :=
  if baselineViolations failOn rules diff = [] then 0 else 1

/-- The spec's allow-rule matching relation, written from the spec's
words: a rule matches an issue when each of its present constraints —
parser name, field name, severity — equals the issue's corresponding
attribute, and an absent constraint always matches. -/
def specRuleMatches (rule : AllowRule) (parserName : String) (issue : Issue) : Prop :=
  (∀ s, rule.parser = some s → s = parserName) ∧
  (∀ s, rule.field = some s → s = issue.field) ∧
  (∀ s, rule.severity = some s → s = issue.severity)

/-- No rule carries a present-but-empty constraint (the spec's
present/absent dichotomy; the empty-string corner is treated separately). -/
def noEmptyConstraints (rules : List AllowRule) : Prop :=
  ∀ rule ∈ rules, rule.parser ≠ some "" ∧ rule.field ≠ some "" ∧ rule.severity ≠ some ""

/-! ## Warning gate (`warning_gate.py`) -/

structure WarningRec where
  code : String
  severity : String
  recoverable : Bool
  context : String
  message : String
deriving DecidableEq

structure WarnPolicy where
  fail_on_severity : List String
  fail_on_non_recoverable : Bool
  max_warnings_per_file : Int
  allow_codes : List String
deriving DecidableEq

/-- The protocol-line dispatch of `collect_warnings`: one already-split
line (`line.strip().split("|")`) updates the per-file rows map.  `dec` is
the base64 decoder (pure I/O glue, kept abstract).  `setdefault(f, [])`
followed by `append` becomes a point update of the lookup function. -/
def collectStep (dec : String → String) (rows : String → Option (List WarningRec)) :
    List String → String → Option (List WarningRec)
  | "WARN" :: f :: code :: sev :: rec :: ctx :: msg :: _ => fun g =>
      if g = f then
        some (((rows f).getD []) ++
          [⟨dec code, dec sev, dec rec = "true", dec ctx, dec msg⟩])
      else rows g
  | "ERR" :: f :: payload :: _ => fun g =>
      if g = f then
        some (((rows f).getD []) ++ [⟨"parse_error", "error", false, "", dec payload⟩])
      else rows g
  | "OK" :: f :: _ => fun g => if g = f then some ((rows f).getD []) else rows g
  | _ => rows

/-- `collect_warnings`: rows start as `{f: [] for f in files}`, then every
output line is folded in. -/
def collectWarnings (dec : String → String) (files : List String)
    (outLines : List (List String)) : String → Option (List WarningRec) :=
  outLines.foldl (collectStep dec) (fun f => if f ∈ files then some [] else none)

/-- The file of a recognized protocol row (WARN / ERR / OK with enough
fields), `none` for a line `collect_warnings` skips. -/
def lineFile : List String → Option String
  | "WARN" :: f :: _ :: _ :: _ :: _ :: _ :: _ => some f
  | "ERR" :: f :: _ :: _ => some f
  | "OK" :: f :: _ => some f
  | _ => none

/-- The three per-warning checks of `warning_gate.main`, with the source's
`continue` structure: at most one failure per warning, tried in order
allow-list, severity, non-recoverability. -/
def warnChecks (p : WarnPolicy) (f : String) (w : WarningRec) : List String :=
  if p.allow_codes ≠ [] && w.code ∉ p.allow_codes then
    [f ++ ": warning code not allowlisted: " ++ w.code]
  else if w.severity ∈ p.fail_on_severity then
    [f ++ ": disallowed severity " ++ w.severity ++ " code=" ++ w.code ++
      " message=" ++ w.message]
  else if p.fail_on_non_recoverable && !w.recoverable then
    [f ++ ": non-recoverable warning code=" ++ w.code ++ " message=" ++ w.message]
  else []

/-- The per-file body of `warning_gate.main`: the count check first, then
the per-warning loop. -/
def fileFailures (p : WarnPolicy) (f : String) (rows : List WarningRec) : List String :=
  (if (rows.length : Int) > p.max_warnings_per_file then
     [f ++ ": too many warnings (" ++ toString rows.length ++ " > " ++
       toString p.max_warnings_per_file ++ ")"]
   else []) ++ rows.flatMap (warnChecks p f)

/-- All failures of a `warning_gate.main` run over the requested files
(`warnings_by_file.get(f, [])`). -/
def warnGateFailures (p : WarnPolicy) (files : List String)
    (rowsOf : String → Option (List WarningRec)) : List String :=
  files.flatMap (fun f => fileFailures p f ((rowsOf f).getD []))

/-- `warning_gate.main` exit status: `2` iff any failure, else `0`. -/
def warnGateExit (p : WarnPolicy) (files : List String)
    (rowsOf : String → Option (List WarningRec)) : Nat :=
  if warnGateFailures p files rowsOf = [] then 0 else 2

/-- Condition of warning-gate check 2 (allow-list exhaustiveness). -/
def allowCodeCond (p : WarnPolicy) (w : WarningRec) : Bool :=
  p.allow_codes ≠ [] && w.code ∉ p.allow_codes

/-- Condition of warning-gate check 3 (severity). -/
def sevCond (p : WarnPolicy) (w : WarningRec) : Bool :=
  w.severity ∈ p.fail_on_severity

/-- Condition of warning-gate check 4 (non-recoverability). -/
def nonRecCond (p : WarnPolicy) (w : WarningRec) : Bool :=
  p.fail_on_non_recoverable && !w.recoverable

/-! ## PST fixture oracle (`pst_semantic_gate.py`) -/

/-- One decoded row of the PST probe output (`collect`). -/
structure PstRow where
  status : String
  index_count : Int
  descriptor_count : Int
  codes : List String
deriving DecidableEq

/-- Python `repr` of a list of strings, as interpolated by the f-strings
of `pst_semantic_gate.main`. -/
def showStrList (l : List String) : String :=
  "[" ++ String.intercalate ", " (l.map (fun c => "'" ++ c ++ "'")) ++ "]"

/-- `sorted(set(codes))` rendered as Python does. -/
def showCodeSet (codes : List String) : String :=
  showStrList (codes.dedup.insertionSort (· ≤ ·))

/-- The fixture codes required of `corrupt_offsets_pst97.pst`. -/
def requiredCorrupt : List String := ["pst_index_parse_failed", "pst_descriptor_parse_failed"]

/-- The per-file body of `pst_semantic_gate.main`: `f` is the full path,
`base` its basename, `row` the decoded probe row (`none` when the probe
printed no row for the file).  `codes = set(row["codes"])` becomes
`row.codes.dedup` (same members, same cardinality). -/
def pstCheck (f base : String) (row : Option PstRow) : List String :=
  match row with
  | none => [f ++ ": missing output row"]
  | some row =>
    if row.status ≠ "ok" then
      [f ++ ": parser returned error " ++ showStrList row.codes]
    else
      let codes := row.codes.dedup
      if base = "minimal_pst97.pst" then
        if codes ≠ [] then
          [f ++ ": expected clean parse, got warning codes " ++ showCodeSet row.codes]
        else []
      else if base = "corrupt_offsets_pst97.pst" then
        if ¬ codes.any (· ∈ requiredCorrupt) then
          [f ++ ": expected parse-failed warning code, got " ++ showCodeSet row.codes]
        else []
      else if base = "loop_branch_index_pst97.pst" then
        if "pst_branch_loop_detected" ∉ codes then
          [f ++ ": expected pst_branch_loop_detected, got " ++ showCodeSet row.codes]
        else []
      else
        if codes.length > 20 then
          [f ++ ": excessive warning cardinality (" ++ toString codes.length ++ ")"]
        else []

/-! ## Text normalization (`_norm` of `msg_diff_harness.py`)

`s.replace("\x00", "")`, then `re.sub(r"\s+", " ", s)`, then `.strip()`.
The whitespace class is the Unicode whitespace set used by Python's `\s`
on `str` (and by `str.strip()`). -/

def isPyWS (c : Char) : Bool :=
  c ∈ ([' ', '\t', '\n', '\r', '\x0b', '\x0c',
        '\x1c', '\x1d', '\x1e', '\x1f', '\x85', '\u00A0',
        '\u1680', '\u2000', '\u2001', '\u2002', '\u2003', '\u2004',
        '\u2005', '\u2006', '\u2007', '\u2008', '\u2009', '\u200A',
        '\u2028', '\u2029', '\u202F', '\u205F', '\u3000'] : List Char)

/-- `s.replace("\x00", "")`. -/
def removeNul (l : List Char) : List Char := l.filter (fun c => c ≠ '\x00')

/-- `re.sub(r"\s+", " ", s)`: replace every maximal whitespace run by one
space.  The boolean flag records whether the previous character was part
of a whitespace run already replaced. -/
def collapseWS : Bool → List Char → List Char
  | _, [] => []
  | prevWS, c :: cs =>
    if isPyWS c then
      if prevWS then collapseWS true cs else ' ' :: collapseWS true cs
    else c :: collapseWS false cs

/-- `.strip()`: drop whitespace from both ends. -/
def stripWS (l : List Char) : List Char :=
  (((l.dropWhile isPyWS).reverse.dropWhile isPyWS).reverse)

/-- `_norm` on the character list of the input string. -/
def normChars (l : List Char) : List Char :=
  stripWS (collapseWS false (removeNul l))

/-- `_norm(v)` for a string input. -/
def pyNorm (s : String) : String := String.mk (normChars s.data)

/-! ## Supporting lemmas -/

theorem tdiv_coe (m n : Nat) : Int.tdiv (m : Int) (n : Int) = ((m / n : Nat) : Int) := rfl

theorem tdiv_mono_nonneg {a b c : Int} (ha : 0 ≤ a) (hab : a ≤ b) (hc : 0 ≤ c) :
    Int.tdiv a c ≤ Int.tdiv b c := by
  obtain ⟨m, rfl⟩ := Int.eq_ofNat_of_zero_le ha
  obtain ⟨n, rfl⟩ := Int.eq_ofNat_of_zero_le (ha.trans hab)
  obtain ⟨k, rfl⟩ := Int.eq_ofNat_of_zero_le hc
  rw [tdiv_coe, tdiv_coe]
  exact_mod_cast Nat.div_le_div_right (by exact_mod_cast hab)

/-- Claim C8: for each fixed length field, the tolerance function is
monotonic in the baseline value: for non-negative `bv1 ≤ bv2` the bands
`max(128, int(0.02*bv))`, `max(4096, int(0.05*bv))` and
`max(64, int(0.2*bv))` never decrease. -/
theorem claim_C8 (bv1 bv2 : Int) (h0 : 0 ≤ bv1) (h : bv1 ≤ bv2) :
    bodyTol bv1 ≤ bodyTol bv2 ∧ htmlTol bv1 ≤ htmlTol bv2 ∧ emlBodyTol bv1 ≤ emlBodyTol bv2 := by
  refine ⟨max_le_max le_rfl ?_, max_le_max le_rfl ?_, max_le_max le_rfl ?_⟩ <;>
    exact tdiv_mono_nonneg (by positivity)
      (mul_le_mul_of_nonneg_right h (by norm_num)) (by norm_num)

/-- Witness for C8 at a concrete pair of baseline values. -/
theorem claim_C8_witness :
    bodyTol 100 ≤ bodyTol 20000 ∧ htmlTol 100 ≤ htmlTol 20000 ∧
      emlBodyTol 100 ≤ emlBodyTol 20000 :=
  claim_C8 100 20000 (by norm_num) (by norm_num)


theorem fieldIssue_body_len (b r : RR) (x y : Int)
    (hb : b.get "body_len" = FieldVal.vInt x) (hr : r.get "body_len" = FieldVal.vInt y) :
    fieldIssue b r "body_len" =
      if ((x - y).natAbs : Int) ≤ max 128 (Int.tdiv (x * 2) 100) then []
      else [⟨"body_len", "medium", IVal.fv (FieldVal.vInt x), IVal.fv (FieldVal.vInt y), ""⟩] := by
  have hsev : severityOfField "body_len" = "medium" := by decide
  by_cases hxy : x = y
  · subst hxy
    have h0 : ((x - x).natAbs : Int) ≤ max 128 (Int.tdiv (x * 2) 100) :=
      le_trans (by simp) (le_max_left _ _)
    rw [if_pos h0]
    simp [fieldIssue, hb, hr]
  · have hne : FieldVal.vInt x ≠ FieldVal.vInt y := by simpa using hxy
    unfold fieldIssue
    rw [hb, hr, if_neg hne]
    have h2 : (decide (("body_len" : String) = "body_len") &&
        lenWithin bodyTol (FieldVal.vInt x) (FieldVal.vInt y)) =
        decide (((x - y).natAbs : Int) ≤ max 128 (Int.tdiv (x * 2) 100)) := by
      simp [lenWithin, bodyTol]
    have h3 : (decide (("body_len" : String) = "html_len") &&
        lenWithin htmlTol (FieldVal.vInt x) (FieldVal.vInt y)) = false := by
      simp
    rw [h2, h3, hsev]
    by_cases hle : ((x - y).natAbs : Int) ≤ max 128 (Int.tdiv (x * 2) 100)
    · simp [hle]
    · simp [hle]

theorem fieldIssue_html_len (b r : RR) (x y : Int)
    (hb : b.get "html_len" = FieldVal.vInt x) (hr : r.get "html_len" = FieldVal.vInt y) :
    fieldIssue b r "html_len" =
      if ((x - y).natAbs : Int) ≤ max 4096 (Int.tdiv (x * 5) 100) then []
      else [⟨"html_len", "medium", IVal.fv (FieldVal.vInt x), IVal.fv (FieldVal.vInt y), ""⟩] := by
  have hsev : severityOfField "html_len" = "medium" := by decide
  by_cases hxy : x = y
  · subst hxy
    have h0 : ((x - x).natAbs : Int) ≤ max 4096 (Int.tdiv (x * 5) 100) :=
      le_trans (by simp) (le_max_left _ _)
    rw [if_pos h0]
    simp [fieldIssue, hb, hr]
  · have hne : FieldVal.vInt x ≠ FieldVal.vInt y := by simpa using hxy
    unfold fieldIssue
    rw [hb, hr, if_neg hne]
    have h2 : (decide (("html_len" : String) = "body_len") &&
        lenWithin bodyTol (FieldVal.vInt x) (FieldVal.vInt y)) = false := by
      simp
    have h3 : (decide (("html_len" : String) = "html_len") &&
        lenWithin htmlTol (FieldVal.vInt x) (FieldVal.vInt y)) =
        decide (((x - y).natAbs : Int) ≤ max 4096 (Int.tdiv (x * 5) 100)) := by
      simp [lenWithin, htmlTol]
    rw [h2, h3, hsev]
    by_cases hle : ((x - y).natAbs : Int) ≤ max 4096 (Int.tdiv (x * 5) 100)
    · simp [hle]
    · simp [hle]

/-- Claim C4: length-field issues fire iff `|bv - rv|` exceeds the band:
`body_len` uses `max(128, 2% of bv)` in the compound-object comparator and
`max(64, 20% of the baseline length)` in the plain-text-mail comparator;
`html_len` uses `max(4096, 5% of bv)`; baseline 1000 vs candidate 1015
yields no issue, baseline 10000 vs candidate 9700 yields exactly one. -/
theorem claim_C4 :
    (∀ (b r : RR) (x y : Int), b.get "body_len" = FieldVal.vInt x →
        r.get "body_len" = FieldVal.vInt y →
        (fieldIssue b r "body_len" = [] ↔
          ((x - y).natAbs : Int) ≤ max 128 (Int.tdiv (x * 2) 100))) ∧
    (∀ (b r : RR) (x y : Int), b.get "html_len" = FieldVal.vInt x →
        r.get "html_len" = FieldVal.vInt y →
        (fieldIssue b r "html_len" = [] ↔
          ((x - y).natAbs : Int) ≤ max 4096 (Int.tdiv (x * 5) 100))) ∧
    (∀ n : Int, emlBodyTol n = max 64 (Int.tdiv (n * 20) 100)) ∧
    (∀ (b r : RR), b.get "body_len" = FieldVal.vInt 1000 →
        r.get "body_len" = FieldVal.vInt 1015 → fieldIssue b r "body_len" = []) ∧
    (∀ (b r : RR), b.get "body_len" = FieldVal.vInt 10000 →
        r.get "body_len" = FieldVal.vInt 9700 → ∃ i, fieldIssue b r "body_len" = [i]) := by
  refine ⟨?_, ?_, fun _ => rfl, ?_, ?_⟩
  · intro b r x y hb hr
    rw [fieldIssue_body_len b r x y hb hr]
    by_cases hle : ((x - y).natAbs : Int) ≤ max 128 (Int.tdiv (x * 2) 100)
    · rw [if_pos hle]; exact iff_of_true rfl hle
    · rw [if_neg hle]; exact iff_of_false (by simp) hle
  · intro b r x y hb hr
    rw [fieldIssue_html_len b r x y hb hr]
    by_cases hle : ((x - y).natAbs : Int) ≤ max 4096 (Int.tdiv (x * 5) 100)
    · rw [if_pos hle]; exact iff_of_true rfl hle
    · rw [if_neg hle]; exact iff_of_false (by simp) hle
  · intro b r hb hr
    rw [fieldIssue_body_len b r 1000 1015 hb hr, if_pos (by decide)]
  · intro b r hb hr
    rw [fieldIssue_body_len b r 10000 9700 hb hr, if_neg (by decide)]
    exact ⟨_, rfl⟩

/-- Witness for C4 at a concrete pair of records. -/
theorem claim_C4_witness :
    fieldIssue ⟨FieldVal.vStr "s", FieldVal.vStr "f", FieldVal.vStr "t", FieldVal.vInt 1,
        FieldVal.vInt 0, FieldVal.vStr "e", FieldVal.vInt 1000, FieldVal.vInt 0⟩
      ⟨FieldVal.vStr "s", FieldVal.vStr "f", FieldVal.vStr "t", FieldVal.vInt 1,
        FieldVal.vInt 0, FieldVal.vStr "e", FieldVal.vInt 1015, FieldVal.vInt 0⟩
      "body_len" = [] :=
  claim_C4.2.2.2.1 _ _ rfl rfl

/-- Claim C5: severity is a fixed function of the field name — the four
listed fields map to `high`, `from`/`to`/`body_len`/`html_len` to
`medium`, anything else to `low` — and for any `high`-severity field an
equal pair yields zero issues while any unequal pair yields exactly one
issue of severity `high`. -/
theorem claim_C5 :
    (severityOfField "subject" = "high" ∧ severityOfField "recipient_count" = "high" ∧
     severityOfField "attachment_count" = "high" ∧
     severityOfField "first_recipient_email" = "high" ∧
     severityOfField "from" = "medium" ∧ severityOfField "to" = "medium" ∧
     severityOfField "body_len" = "medium" ∧ severityOfField "html_len" = "medium" ∧
     (∀ field : String, field ∉ fieldsList → severityOfField field = "low")) ∧
    (∀ (b r : RR) (field : String), severityOfField field = "high" →
      (b.get field = r.get field → fieldIssue b r field = []) ∧
      (b.get field ≠ r.get field →
        ∃ i, fieldIssue b r field = [i] ∧ i.severity = "high")) := by
  constructor
  · refine ⟨rfl, rfl, rfl, rfl, rfl, rfl, rfl, rfl, ?_⟩
    intro field hf
    have h1 : field ∉ (["subject", "recipient_count", "attachment_count",
        "first_recipient_email"] : List String) := by
      intro h; apply hf; simp only [fieldsList, List.mem_cons] at *; tauto
    have h2 : field ∉ (["from", "to"] : List String) := by
      intro h; apply hf; simp only [fieldsList, List.mem_cons] at *; tauto
    have h3 : field ∉ (["body_len", "html_len"] : List String) := by
      intro h; apply hf; simp only [fieldsList, List.mem_cons] at *; tauto
    simp [severityOfField, h1, h2, h3]
  · intro b r field hsev
    have hmem : field ∈ (["subject", "recipient_count", "attachment_count",
        "first_recipient_email"] : List String) := by
      by_contra hmem
      rw [severityOfField, if_neg hmem] at hsev
      split_ifs at hsev <;> simp_all
    have hb : field ≠ "body_len" := by
      intro h; subst h; simp at hmem
    have hh : field ≠ "html_len" := by
      intro h; subst h; simp at hmem
    constructor
    · intro heq
      simp [fieldIssue, heq]
    · intro hne
      refine ⟨⟨field, severityOfField field, IVal.fv (b.get field),
        IVal.fv (r.get field), ""⟩, ?_, hsev⟩
      unfold fieldIssue
      rw [if_neg hne]
      have hc1 : (decide (field = "body_len") &&
          lenWithin bodyTol (b.get field) (r.get field)) = false := by
        simp [hb]
      have hc2 : (decide (field = "html_len") &&
          lenWithin htmlTol (b.get field) (r.get field)) = false := by
        simp [hh]
      rw [hc1, hc2]
      simp

/-- Witness for C5: the `subject` field at a concrete equal and a
concrete unequal pair of records. -/
theorem claim_C5_witness :
    (RR.mk (FieldVal.vStr "Hello") (FieldVal.vStr "f") (FieldVal.vStr "t") (FieldVal.vInt 1)
        (FieldVal.vInt 0) (FieldVal.vStr "e") (FieldVal.vInt 10) (FieldVal.vInt 0)).get
        "subject" ≠
      (RR.mk (FieldVal.vStr "Bye") (FieldVal.vStr "f") (FieldVal.vStr "t") (FieldVal.vInt 1)
        (FieldVal.vInt 0) (FieldVal.vStr "e") (FieldVal.vInt 10) (FieldVal.vInt 0)).get
        "subject" ∧
    ∃ i, fieldIssue
        (RR.mk (FieldVal.vStr "Hello") (FieldVal.vStr "f") (FieldVal.vStr "t") (FieldVal.vInt 1)
          (FieldVal.vInt 0) (FieldVal.vStr "e") (FieldVal.vInt 10) (FieldVal.vInt 0))
        (RR.mk (FieldVal.vStr "Bye") (FieldVal.vStr "f") (FieldVal.vStr "t") (FieldVal.vInt 1)
          (FieldVal.vInt 0) (FieldVal.vStr "e") (FieldVal.vInt 10) (FieldVal.vInt 0))
        "subject" = [i] ∧ i.severity = "high" :=
  ⟨by decide, (claim_C5.2 _ _ "subject" rfl).2 (by decide)⟩

/-- Claim C3: when the baseline record or the candidate record is absent,
the deviation set builder emits exactly one record-level issue with field
`"parser"` and severity `"high"`, carrying whichever side is present, and
performs no field comparisons. -/
theorem claim_C3 (base row : Option RR) (h : base = none ∨ row = none) :
    ∃ i : Issue, pairIssues base row = [i] ∧ i.field = "parser" ∧ i.severity = "high" ∧
      ((base = none ∧ i.baseline = IVal.pyNone ∧ i.actual = IVal.recV row) ∨
       (∃ b, base = some b ∧ row = none ∧
         i.baseline = IVal.recV (some b) ∧ i.actual = IVal.pyNone)) := by
  cases base with
  | none =>
    exact ⟨_, rfl, rfl, rfl, Or.inl ⟨rfl, rfl, rfl⟩⟩
  | some b =>
    cases row with
    | none => exact ⟨_, rfl, rfl, rfl, Or.inr ⟨b, rfl, rfl, rfl, rfl⟩⟩
    | some r => rcases h with h | h <;> exact absurd h (by simp)

/-- Witness for C3: a present candidate record against a missing
baseline record. -/
theorem claim_C3_witness :
    ∃ i : Issue, pairIssues none
        (some (RR.mk (FieldVal.vStr "s") (FieldVal.vStr "f") (FieldVal.vStr "t")
          (FieldVal.vInt 1) (FieldVal.vInt 0) (FieldVal.vStr "e") (FieldVal.vInt 10)
          (FieldVal.vInt 0))) = [i] ∧ i.field = "parser" ∧ i.severity = "high" ∧
      ((none = (none : Option RR) ∧ i.baseline = IVal.pyNone ∧
          i.actual = IVal.recV (some (RR.mk (FieldVal.vStr "s") (FieldVal.vStr "f")
            (FieldVal.vStr "t") (FieldVal.vInt 1) (FieldVal.vInt 0) (FieldVal.vStr "e")
            (FieldVal.vInt 10) (FieldVal.vInt 0)))) ∨
       (∃ b, (none : Option RR) = some b ∧
          (some (RR.mk (FieldVal.vStr "s") (FieldVal.vStr "f") (FieldVal.vStr "t")
            (FieldVal.vInt 1) (FieldVal.vInt 0) (FieldVal.vStr "e") (FieldVal.vInt 10)
            (FieldVal.vInt 0))) = none ∧
          i.baseline = IVal.recV (some b) ∧ i.actual = IVal.pyNone)) :=
  claim_C3 none _ (Or.inl rfl)

/-- Claim C9: in the allow-rule matcher a present-but-empty constraint
behaves exactly like an absent one — a rule whose parser, field and
severity constraints are all empty strings matches every issue for every
parser name. -/
theorem claim_C9 :
    (∀ v : String, constraintBlocks (some "") v = constraintBlocks none v) ∧
    (∀ (parserName : String) (issue : Issue) (rules : List AllowRule),
      allowedBy issue parserName
        ({ parser := some "", field := some "", severity := some "" } :: rules) = true) := by
  constructor
  · intro v; simp [constraintBlocks]
  · intro pn issue rules
    simp [allowedBy, constraintBlocks]

/-- One rule's combined constraint test, as tried by `_allowed`. -/
def ruleMatches (rule : AllowRule) (parserName : String) (issue : Issue) : Bool :=
  !constraintBlocks rule.parser parserName && !constraintBlocks rule.field issue.field &&
    !constraintBlocks rule.severity issue.severity

theorem allowedBy_eq_any (issue : Issue) (pn : String) (rules : List AllowRule) :
    allowedBy issue pn rules = rules.any (fun rule => ruleMatches rule pn issue) := by
  induction rules with
  | nil => rfl
  | cons rule rest ih =>
    simp only [allowedBy, List.any_cons]
    by_cases b1 : constraintBlocks rule.parser pn
    · have hm : ruleMatches rule pn issue = false := by simp [ruleMatches, b1]
      simp [b1, hm, ih]
    · by_cases b2 : constraintBlocks rule.field issue.field
      · have hm : ruleMatches rule pn issue = false := by simp [ruleMatches, b2]
        simp [b1, b2, hm, ih]
      · by_cases b3 : constraintBlocks rule.severity issue.severity
        · have hm : ruleMatches rule pn issue = false := by simp [ruleMatches, b3]
          simp [b1, b2, b3, hm, ih]
        · have hm : ruleMatches rule pn issue = true := by simp [ruleMatches, b1, b2, b3]
          simp [b1, b2, b3, hm]

theorem constraintBlocks_false_iff {c : Option String} {v : String} (hne : c ≠ some "") :
    constraintBlocks c v = false ↔ ∀ s, c = some s → s = v := by
  cases c with
  | none => simp [constraintBlocks]
  | some s =>
    have hs : ¬s = "" := fun h => hne (by rw [h])
    simp [constraintBlocks, hs]

theorem ruleMatches_iff_spec {rule : AllowRule} {pn : String} {issue : Issue}
    (h1 : rule.parser ≠ some "") (h2 : rule.field ≠ some "") (h3 : rule.severity ≠ some "") :
    ruleMatches rule pn issue = true ↔ specRuleMatches rule pn issue := by
  rw [ruleMatches, specRuleMatches]
  simp only [Bool.and_eq_true, Bool.not_eq_true']
  rw [constraintBlocks_false_iff h1, constraintBlocks_false_iff h2,
    constraintBlocks_false_iff h3]
  tauto

/-- Claim C2: in the baseline deviation gate an issue is a violation iff
its severity is in `fail_on_severity` and it matches no allow rule, where
a rule matches iff each present constraint equals the issue's
corresponding attribute and an absent constraint always matches; the gate
exits non-zero iff some issue of the diff structure survives both
filters. -/
theorem claim_C2 (failOn : List String) (rules : List AllowRule)
    (diff : List (String × List (String × List Issue)))
    (hne : noEmptyConstraints rules) :
    (∀ (pn : String) (issue : Issue),
      issueViolates failOn rules pn issue = true ↔
        (issue.severity ∈ failOn ∧ ¬ ∃ rule ∈ rules, specRuleMatches rule pn issue)) ∧
    (baselineGateExit failOn rules diff ≠ 0 ↔
      ∃ fp ∈ diff, ∃ pi ∈ fp.2, ∃ issue ∈ pi.2,
        issueViolates failOn rules pi.1 issue = true) := by
  constructor
  · intro pn issue
    rw [issueViolates]
    simp only [Bool.and_eq_true, Bool.not_eq_true', decide_eq_true_eq]
    constructor
    · rintro ⟨hsv, hall⟩
      refine ⟨hsv, ?_⟩
      rintro ⟨rule, hr, hspec⟩
      have hone : allowedBy issue pn rules = true := by
        rw [allowedBy_eq_any, List.any_eq_true]
        obtain ⟨e1, e2, e3⟩ := hne rule hr
        exact ⟨rule, hr, (ruleMatches_iff_spec e1 e2 e3).mpr hspec⟩
      rw [hone] at hall
      simp at hall
    · rintro ⟨hsv, hnomatch⟩
      refine ⟨hsv, ?_⟩
      rw [allowedBy_eq_any, Bool.eq_false_iff]
      intro hany
      rw [List.any_eq_true] at hany
      obtain ⟨rule, hr, hm⟩ := hany
      obtain ⟨e1, e2, e3⟩ := hne rule hr
      exact hnomatch ⟨rule, hr, (ruleMatches_iff_spec e1 e2 e3).mp hm⟩
  · rw [baselineGateExit]
    by_cases hv : baselineViolations failOn rules diff = []
    · rw [if_pos hv]
      constructor
      · intro h0; exact absurd rfl h0
      · rintro ⟨fp, hfp, pi, hpi, issue, hissue, hviol⟩
        intro _
        have hm : renderViolation fp.1 pi.1 issue ∈ baselineViolations failOn rules diff := by
          rw [baselineViolations]
          refine List.mem_flatMap.mpr ⟨fp, hfp, ?_⟩
          refine List.mem_flatMap.mpr ⟨pi, hpi, ?_⟩
          refine List.mem_filterMap.mpr ⟨issue, hissue, ?_⟩
          rw [if_pos hviol]
        rw [hv] at hm
        exact List.not_mem_nil _ hm
    · rw [if_neg hv]
      constructor
      · intro _
        obtain ⟨v, hvmem⟩ := List.exists_mem_of_ne_nil _ hv
        rw [baselineViolations] at hvmem
        obtain ⟨fp, hfp, hv2⟩ := List.mem_flatMap.mp hvmem
        obtain ⟨pi, hpi, hv3⟩ := List.mem_flatMap.mp hv2
        obtain ⟨issue, hissue, hv4⟩ := List.mem_filterMap.mp hv3
        refine ⟨fp, hfp, pi, hpi, issue, hissue, ?_⟩
        by_contra hnv
        rw [if_neg hnv] at hv4
        exact Option.noConfusion hv4
      · intro _
        exact Nat.one_ne_zero

/-- Witness for C2 at a concrete policy and diff structure. -/
theorem claim_C2_witness :
    (∀ (pn : String) (issue : Issue),
      issueViolates ["high"] [⟨none, some "body_len", none⟩] pn issue = true ↔
        (issue.severity ∈ (["high"] : List String) ∧
          ¬ ∃ rule ∈ ([⟨none, some "body_len", none⟩] : List AllowRule),
            specRuleMatches rule pn issue)) ∧
    (baselineGateExit ["high"] [⟨none, some "body_len", none⟩]
        [("a.msg", [("outlook_msg",
          [⟨"subject", "high", IVal.fv (FieldVal.vStr "x"), IVal.fv (FieldVal.vStr "y"), ""⟩])])]
        ≠ 0 ↔
      ∃ fp ∈ ([("a.msg", [("outlook_msg",
          [⟨"subject", "high", IVal.fv (FieldVal.vStr "x"), IVal.fv (FieldVal.vStr "y"), ""⟩])])] :
            List (String × List (String × List Issue))), ∃ pi ∈ fp.2, ∃ issue ∈ pi.2,
        issueViolates ["high"] [⟨none, some "body_len", none⟩] pi.1 issue = true) :=
  claim_C2 ["high"] [⟨none, some "body_len", none⟩] _ (by
    intro rule hr
    simp only [List.mem_singleton] at hr
    subst hr
    refine ⟨by simp, by simp, by simp⟩)

/-- A policy and warning that trip all three per-warning checks at once. -/
def cexPolicy : WarnPolicy := ⟨["error"], true, 50, ["known_quirk"]⟩

/-- A warning whose code is not allowlisted, whose severity is in
`fail_on_severity`, and which is non-recoverable. -/
def cexWarn : WarningRec := ⟨"other_code", "error", false, "", "boom"⟩

/-- Counterexample to claim C1 as stated: if each of the three per-warning
checks added its own violation whenever its condition holds, this file
(one warning tripping all three checks, count check not tripped) would
produce three failures; the gate produces exactly one. -/
theorem claim_C1_counterexample :
    ¬ ((fileFailures cexPolicy "f.msg" [cexWarn]).length =
       (if ((([cexWarn] : List WarningRec).length : Int) >
             cexPolicy.max_warnings_per_file) then 1 else 0) +
         ((if allowCodeCond cexPolicy cexWarn then 1 else 0) +
          (if sevCond cexPolicy cexWarn then 1 else 0) +
          (if nonRecCond cexPolicy cexWarn then 1 else 0))) := by
  decide

/-- Claim C1 as amended: the per-file count check is independent, but the
three per-warning checks short-circuit in order allow-code, severity,
non-recoverable — each warning contributes exactly one violation (labelled
by the first check whose condition holds) when any condition holds, and
none otherwise. -/
theorem claim_C1 (p : WarnPolicy) (f : String) (rows : List WarningRec) :
    fileFailures p f rows =
      (if (rows.length : Int) > p.max_warnings_per_file then
         [f ++ ": too many warnings (" ++ toString rows.length ++ " > " ++
           toString p.max_warnings_per_file ++ ")"]
       else []) ++
      rows.flatMap (fun w =>
        if allowCodeCond p w then [f ++ ": warning code not allowlisted: " ++ w.code]
        else if sevCond p w then
          [f ++ ": disallowed severity " ++ w.severity ++ " code=" ++ w.code ++
            " message=" ++ w.message]
        else if nonRecCond p w then
          [f ++ ": non-recoverable warning code=" ++ w.code ++ " message=" ++ w.message]
        else []) ∧
    (fileFailures p f rows).length =
      (if (rows.length : Int) > p.max_warnings_per_file then 1 else 0) +
        rows.countP (fun w => allowCodeCond p w || sevCond p w || nonRecCond p w) := by
  have hchecks : ∀ w, warnChecks p f w =
      (if allowCodeCond p w then [f ++ ": warning code not allowlisted: " ++ w.code]
       else if sevCond p w then
         [f ++ ": disallowed severity " ++ w.severity ++ " code=" ++ w.code ++
           " message=" ++ w.message]
       else if nonRecCond p w then
         [f ++ ": non-recoverable warning code=" ++ w.code ++ " message=" ++ w.message]
       else []) := by
    intro w
    unfold warnChecks allowCodeCond sevCond nonRecCond
    simp only [decide_eq_true_eq]
  have hcount : ∀ rows' : List WarningRec,
      (rows'.flatMap (warnChecks p f)).length =
        rows'.countP (fun w => allowCodeCond p w || sevCond p w || nonRecCond p w) := by
    intro rows'
    induction rows' with
    | nil => rfl
    | cons w ws ih =>
      rw [List.flatMap_cons, List.length_append, ih, List.countP_cons]
      have hone : (warnChecks p f w).length =
          if (allowCodeCond p w || sevCond p w || nonRecCond p w) = true then 1 else 0 := by
        rw [hchecks]
        by_cases c1 : allowCodeCond p w
        · simp [c1]
        · by_cases c2 : sevCond p w
          · simp [c1, c2]
          · by_cases c3 : nonRecCond p w
            · simp [c1, c2, c3]
            · simp [c1, c2, c3]
      rw [hone]
      omega
  constructor
  · rw [fileFailures]
    congr 1
    rw [show warnChecks p f = fun w =>
      (if allowCodeCond p w then [f ++ ": warning code not allowlisted: " ++ w.code]
       else if sevCond p w then
         [f ++ ": disallowed severity " ++ w.severity ++ " code=" ++ w.code ++
           " message=" ++ w.message]
       else if nonRecCond p w then
         [f ++ ": non-recoverable warning code=" ++ w.code ++ " message=" ++ w.message]
       else []) from funext hchecks]
  · rw [fileFailures, List.length_append, hcount]
    by_cases hc : (rows.length : Int) > p.max_warnings_per_file
    · simp [hc]
    · simp [hc]

theorem collectStep_other {dec : String → String}
    {rows : String → Option (List WarningRec)} {parts : List String} {f : String}
    (h : lineFile parts ≠ some f) : collectStep dec rows parts f = rows f := by
  unfold collectStep
  split
  · rename_i f' _ _ _ _ _ _
    have hf : f ≠ f' := by
      intro hh
      exact h (by rw [hh]; rfl)
    simp only [if_neg hf]
  · rename_i f' _ _
    have hf : f ≠ f' := by
      intro hh
      exact h (by rw [hh]; rfl)
    simp only [if_neg hf]
  · rename_i f' _
    have hf : f ≠ f' := by
      intro hh
      exact h (by rw [hh]; rfl)
    simp only [if_neg hf]
  · rfl

theorem collect_foldl_other {dec : String → String} {f : String}
    (outLines : List (List String)) (rows : String → Option (List WarningRec))
    (h : ∀ parts ∈ outLines, lineFile parts ≠ some f) :
    (outLines.foldl (collectStep dec) rows) f = rows f := by
  induction outLines generalizing rows with
  | nil => rfl
  | cons parts rest ih =>
    rw [List.foldl_cons]
    rw [ih (collectStep dec rows parts) (fun q hq => h q (List.mem_cons_of_mem _ hq))]
    exact collectStep_other (h parts (List.mem_cons_self _ _))

/-- Claim C10: a requested file with no protocol line at all keeps its
initial empty warning list, an empty warning list contributes no failure
under any policy with `max_warnings_per_file ≥ 0`, and a run printing
nothing passes the warning gate for all files. -/
theorem claim_C10 (dec : String → String) (files : List String)
    (outLines : List (List String)) (f : String) (p : WarnPolicy)
    (hf : f ∈ files) (hnone : ∀ parts ∈ outLines, lineFile parts ≠ some f)
    (hmax : 0 ≤ p.max_warnings_per_file) :
    collectWarnings dec files outLines f = some [] ∧
    fileFailures p f [] = [] ∧
    warnGateExit p files (collectWarnings dec files []) = 0 := by
  have hcnt : ¬ ((([] : List WarningRec).length : Int) > p.max_warnings_per_file) := by
    simp only [List.length_nil, Int.natCast_zero, gt_iff_lt, not_lt]
    exact hmax
  have hempty : ∀ g, fileFailures p g [] = [] := by
    intro g
    rw [fileFailures, if_neg hcnt]
    rfl
  refine ⟨?_, hempty f, ?_⟩
  · rw [collectWarnings, collect_foldl_other outLines _ hnone, if_pos hf]
  · rw [warnGateExit, if_pos ?_]
    rw [collectWarnings, List.foldl_nil]
    rw [warnGateFailures]
    rw [List.flatMap_eq_nil_iff]
    intro g _
    have : ((if g ∈ files then some ([] : List WarningRec) else none).getD []) = [] := by
      split <;> rfl
    rw [this]
    exact hempty g

/-- Witness for C10: one requested file, empty oracle output, a policy
with `max_warnings_per_file = 50`. -/
theorem claim_C10_witness :
    collectWarnings id ["a.msg"] [] "a.msg" = some [] ∧
    fileFailures ⟨["error"], true, 50, []⟩ "a.msg" [] = [] ∧
    warnGateExit ⟨["error"], true, 50, []⟩ ["a.msg"] (collectWarnings id ["a.msg"] []) = 0 :=
  claim_C10 id ["a.msg"] [] "a.msg" ⟨["error"], true, 50, []⟩ (by decide)
    (by intro parts hp; exact absurd hp (List.not_mem_nil _)) (by decide)

theorem loopMsg_split (a c : String) :
    a ++ ": expected pst_branch_loop_detected, got " ++ c =
      (a ++ ": expected ") ++ "pst_branch_loop_detected" ++ (", got " ++ c) := by
  rw [show (": expected pst_branch_loop_detected, got " : String) =
      ": expected " ++ "pst_branch_loop_detected" ++ ", got " from by decide]
  simp only [String.append_assoc]

theorem pstCheck_ok (f base : String) (row : PstRow) (hok : row.status = "ok") :
    pstCheck f base (some row) =
      if base = "minimal_pst97.pst" then
        (if row.codes.dedup ≠ [] then
          [f ++ ": expected clean parse, got warning codes " ++ showCodeSet row.codes] else [])
      else if base = "corrupt_offsets_pst97.pst" then
        (if ¬ row.codes.dedup.any (· ∈ requiredCorrupt) then
          [f ++ ": expected parse-failed warning code, got " ++ showCodeSet row.codes] else [])
      else if base = "loop_branch_index_pst97.pst" then
        (if "pst_branch_loop_detected" ∉ row.codes.dedup then
          [f ++ ": expected pst_branch_loop_detected, got " ++ showCodeSet row.codes] else [])
      else
        (if row.codes.dedup.length > 20 then
          [f ++ ": excessive warning cardinality (" ++ toString row.codes.dedup.length ++ ")"]
         else []) := by
  simp only [pstCheck, hok]
  rw [if_neg (by simp : ¬("ok" : String) ≠ "ok")]

/-- Claim C7: the PST fixture oracle requires zero diagnostic codes of the
clean fixture, at least one code of the required subset of the
offset-corruption fixture, the loop code of the cyclic fixture (failing
with a message naming that code otherwise), and of any other fixture a
parse without hard error and at most 20 distinct codes. -/
theorem claim_C7 :
    (∀ (f : String) (row : PstRow), row.status = "ok" →
      (pstCheck f "minimal_pst97.pst" (some row) = [] ↔ row.codes = [])) ∧
    (∀ (f : String) (row : PstRow), row.status = "ok" →
      (pstCheck f "corrupt_offsets_pst97.pst" (some row) = [] ↔
        ∃ c ∈ row.codes, c ∈ requiredCorrupt)) ∧
    (∀ (f : String) (row : PstRow), row.status = "ok" →
      ("pst_branch_loop_detected" ∈ row.codes →
        pstCheck f "loop_branch_index_pst97.pst" (some row) = []) ∧
      ("pst_branch_loop_detected" ∉ row.codes →
        ∃ preS postS, pstCheck f "loop_branch_index_pst97.pst" (some row) =
          [preS ++ "pst_branch_loop_detected" ++ postS])) ∧
    (∀ (f base : String) (row : PstRow),
      base ≠ "minimal_pst97.pst" → base ≠ "corrupt_offsets_pst97.pst" →
      base ≠ "loop_branch_index_pst97.pst" →
      (row.status ≠ "ok" → pstCheck f base (some row) ≠ []) ∧
      (row.status = "ok" →
        (pstCheck f base (some row) = [] ↔ row.codes.dedup.length ≤ 20))) := by
  refine ⟨?_, ?_, ?_, ?_⟩
  · intro f row hok
    rw [pstCheck_ok f _ row hok, if_pos rfl]
    by_cases hd : row.codes.dedup = []
    · rw [if_neg (by simpa using hd)]
      exact iff_of_true rfl ((List.dedup_eq_nil _).mp hd)
    · rw [if_pos hd]
      exact iff_of_false (by simp) (fun hc => hd (by rw [hc]; rfl))
  · intro f row hok
    rw [pstCheck_ok f _ row hok, if_neg (by decide), if_pos rfl]
    by_cases hany : row.codes.dedup.any (· ∈ requiredCorrupt) = true
    · rw [if_neg (by simpa using hany)]
      refine iff_of_true rfl ?_
      obtain ⟨c, hc, hcr⟩ := List.any_eq_true.mp hany
      exact ⟨c, List.mem_dedup.mp hc, by simpa using hcr⟩
    · rw [if_pos (by simpa using hany)]
      refine iff_of_false (by simp) ?_
      rintro ⟨c, hc, hcr⟩
      exact hany (List.any_eq_true.mpr ⟨c, List.mem_dedup.mpr hc, by simpa using hcr⟩)
  · intro f row hok
    constructor
    · intro hmem
      rw [pstCheck_ok f _ row hok, if_neg (by decide), if_neg (by decide), if_pos rfl]
      rw [if_neg (fun hn => hn (List.mem_dedup.mpr hmem))]
    · intro hnot
      rw [pstCheck_ok f _ row hok, if_neg (by decide), if_neg (by decide), if_pos rfl]
      rw [if_pos (fun hmem => hnot (List.mem_dedup.mp hmem))]
      refine ⟨f ++ ": expected ", ", got " ++ showCodeSet row.codes, ?_⟩
      rw [loopMsg_split]
  · intro f base row h1 h2 h3
    constructor
    · intro hsterr
      simp only [pstCheck]
      rw [if_pos hsterr]
      simp
    · intro hok
      rw [pstCheck_ok f base row hok, if_neg h1, if_neg h2, if_neg h3]
      by_cases hlen : row.codes.dedup.length > 20
      · rw [if_pos hlen]
        exact iff_of_false (by simp) (by omega)
      · rw [if_neg hlen]
        exact iff_of_true rfl (by omega)

/-- Witness for C7: the loop fixture passing with the loop code present
and failing, naming the code, with an empty code set. -/
theorem claim_C7_witness :
    pstCheck "x.pst" "loop_branch_index_pst97.pst"
      (some ⟨"ok", 1, 1, ["pst_branch_loop_detected"]⟩) = [] ∧
    ∃ preS postS, pstCheck "x.pst" "loop_branch_index_pst97.pst"
      (some ⟨"ok", 1, 1, []⟩) = [preS ++ "pst_branch_loop_detected" ++ postS] :=
  ⟨(claim_C7.2.2.1 "x.pst" ⟨"ok", 1, 1, ["pst_branch_loop_detected"]⟩ rfl).1 (by decide),
   (claim_C7.2.2.1 "x.pst" ⟨"ok", 1, 1, []⟩ rfl).2 (by decide)⟩

/-- Adjacent characters are not both whitespace (no run of length ≥ 2). -/
def noTwoWS (a b : Char) : Prop := ¬(isPyWS a = true ∧ isPyWS b = true)

theorem noTwoWS_symm {a b : Char} (h : noTwoWS a b) : noTwoWS b a :=
  fun hp => h ⟨hp.2, hp.1⟩

theorem collapseWS_head_true (l : List Char) :
    ∀ c, (collapseWS true l).head? = some c → isPyWS c = false := by
  induction l with
  | nil => intro c h; simp [collapseWS] at h
  | cons a as ih =>
    intro c h
    by_cases ha : isPyWS a = true
    · rw [show collapseWS true (a :: as) = collapseWS true as by simp [collapseWS, ha]] at h
      exact ih c h
    · rw [show collapseWS true (a :: as) = a :: collapseWS false as by
        simp [collapseWS, ha]] at h
      rw [List.head?_cons, Option.some.injEq] at h
      subst h
      simpa using ha

theorem mem_collapseWS {l : List Char} {b : Bool} {c : Char} (hc : c ∈ collapseWS b l) :
    c = ' ' ∨ c ∈ l := by
  induction l generalizing b with
  | nil => simp [collapseWS] at hc
  | cons a as ih =>
    by_cases ha : isPyWS a = true
    · cases b with
      | true =>
        rw [show collapseWS true (a :: as) = collapseWS true as by simp [collapseWS, ha]] at hc
        rcases ih hc with h | h
        exacts [Or.inl h, Or.inr (List.mem_cons_of_mem _ h)]
      | false =>
        rw [show collapseWS false (a :: as) = ' ' :: collapseWS true as by
          simp [collapseWS, ha]] at hc
        rcases List.mem_cons.mp hc with h | h
        · exact Or.inl h
        · rcases ih h with h2 | h2
          exacts [Or.inl h2, Or.inr (List.mem_cons_of_mem _ h2)]
    · rw [show collapseWS b (a :: as) = a :: collapseWS false as by
        simp [collapseWS, ha]] at hc
      rcases List.mem_cons.mp hc with h | h
      · exact Or.inr (h ▸ List.mem_cons_self _ _)
      · rcases ih h with h2 | h2
        exacts [Or.inl h2, Or.inr (List.mem_cons_of_mem _ h2)]

theorem collapseWS_ws_space {l : List Char} {b : Bool} {c : Char}
    (hc : c ∈ collapseWS b l) (hw : isPyWS c = true) : c = ' ' := by
  induction l generalizing b with
  | nil => simp [collapseWS] at hc
  | cons a as ih =>
    by_cases ha : isPyWS a = true
    · cases b with
      | true =>
        rw [show collapseWS true (a :: as) = collapseWS true as by simp [collapseWS, ha]] at hc
        exact ih hc
      | false =>
        rw [show collapseWS false (a :: as) = ' ' :: collapseWS true as by
          simp [collapseWS, ha]] at hc
        rcases List.mem_cons.mp hc with h | h
        exacts [h, ih h]
    · rw [show collapseWS b (a :: as) = a :: collapseWS false as by
        simp [collapseWS, ha]] at hc
      rcases List.mem_cons.mp hc with h | h
      · subst h; exact absurd hw ha
      · exact ih h

theorem collapseWS_chain (b : Bool) (l : List Char) :
    List.Chain' noTwoWS (collapseWS b l) := by
  induction l generalizing b with
  | nil => rw [show collapseWS b [] = [] from rfl]; exact List.chain'_nil
  | cons a as ih =>
    by_cases ha : isPyWS a = true
    · cases b with
      | true =>
        rw [show collapseWS true (a :: as) = collapseWS true as by simp [collapseWS, ha]]
        exact ih true
      | false =>
        rw [show collapseWS false (a :: as) = ' ' :: collapseWS true as by
          simp [collapseWS, ha]]
        rw [List.chain'_cons']
        refine ⟨?_, ih true⟩
        intro y hy
        have hns : isPyWS y = false :=
          collapseWS_head_true as y (Option.mem_def.mp hy)
        intro hp
        rw [hns] at hp
        exact Bool.false_ne_true hp.2
    · rw [show collapseWS b (a :: as) = a :: collapseWS false as by
        simp [collapseWS, ha]]
      rw [List.chain'_cons']
      refine ⟨?_, ih false⟩
      intro y _ hp
      exact ha hp.1

theorem collapseWS_fix {l : List Char}
    (hall : ∀ c ∈ l, isPyWS c = true → c = ' ')
    (hch : List.Chain' noTwoWS l) :
    collapseWS false l = l ∧
      ((∀ c, l.head? = some c → isPyWS c = false) → collapseWS true l = l) := by
  induction l with
  | nil => exact ⟨rfl, fun _ => rfl⟩
  | cons a as ih =>
    have hall' : ∀ c ∈ as, isPyWS c = true → c = ' ' :=
      fun c hc => hall c (List.mem_cons_of_mem _ hc)
    obtain ⟨hRh, hch'⟩ := List.chain'_cons'.mp hch
    obtain ⟨ih1, ih2⟩ := ih hall' hch'
    constructor
    · by_cases ha : isPyWS a = true
      · have ha' : a = ' ' := hall a (List.mem_cons_self _ _) ha
        rw [show collapseWS false (a :: as) = ' ' :: collapseWS true as by
          simp [collapseWS, ha]]
        have htail : collapseWS true as = as := by
          apply ih2
          intro c hc
          have hR := hRh c (Option.mem_def.mpr hc)
          by_contra hcc
          exact hR ⟨ha, by simpa using hcc⟩
        rw [htail, ha']
      · rw [show collapseWS false (a :: as) = a :: collapseWS false as by
          simp [collapseWS, ha], ih1]
    · intro hhd
      have ha : isPyWS a = false := hhd a rfl
      rw [show collapseWS true (a :: as) = a :: collapseWS false as by
        simp [collapseWS, ha], ih1]

theorem dropWhile_head_false {p : Char → Bool} {l : List Char} :
    ∀ c, (l.dropWhile p).head? = some c → p c = false := by
  induction l with
  | nil => intro c h; simp at h
  | cons a as ih =>
    intro c h
    by_cases pa : p a = true
    · rw [List.dropWhile_cons, if_pos pa] at h
      exact ih c h
    · rw [List.dropWhile_cons, if_neg pa] at h
      rw [List.head?_cons, Option.some.injEq] at h
      subst h
      simpa using pa

theorem dropWhile_eq_self_of_head {p : Char → Bool} {l : List Char}
    (h : ∀ c, l.head? = some c → p c = false) : l.dropWhile p = l := by
  cases l with
  | nil => rfl
  | cons a as =>
    rw [List.dropWhile_cons, if_neg (by simp [h a rfl])]

theorem dropWhile_suffix (p : Char → Bool) (l : List Char) : l.dropWhile p <:+ l :=
  ⟨l.takeWhile p, List.takeWhile_append_dropWhile p l⟩

theorem mem_stripWS {l : List Char} {c : Char} (hc : c ∈ stripWS l) : c ∈ l := by
  rw [stripWS, List.mem_reverse] at hc
  have h1 := (List.dropWhile_sublist isPyWS).subset hc
  rw [List.mem_reverse] at h1
  exact (List.dropWhile_sublist isPyWS).subset h1

theorem chain_stripWS {l : List Char} (h : List.Chain' noTwoWS l) :
    List.Chain' noTwoWS (stripWS l) := by
  have h1 : List.Chain' noTwoWS (l.dropWhile isPyWS) :=
    h.suffix (dropWhile_suffix _ _)
  have h2 : List.Chain' noTwoWS (l.dropWhile isPyWS).reverse := by
    rw [List.chain'_reverse]
    exact h1.imp (fun a b hab => noTwoWS_symm hab)
  have h3 : List.Chain' noTwoWS ((l.dropWhile isPyWS).reverse.dropWhile isPyWS) :=
    h2.suffix (dropWhile_suffix _ _)
  rw [stripWS, List.chain'_reverse]
  exact h3.imp (fun a b hab => noTwoWS_symm hab)

theorem getLast?_of_suffix {l₁ l₂ : List Char} (h : l₁ <:+ l₂) (hne : l₁ ≠ []) :
    l₁.getLast? = l₂.getLast? := by
  obtain ⟨t, rfl⟩ := h
  rw [List.getLast?_append]
  cases hL : l₁.getLast? with
  | none => exact absurd (List.getLast?_eq_none_iff.mp hL) hne
  | some x => rfl

theorem stripWS_head_false (l : List Char) :
    ∀ c, (stripWS l).head? = some c → isPyWS c = false := by
  intro c hc
  rw [stripWS, List.head?_reverse] at hc
  have hwne : (l.dropWhile isPyWS).reverse.dropWhile isPyWS ≠ [] := by
    intro h0
    rw [h0] at hc
    exact Option.noConfusion hc
  rw [getLast?_of_suffix (dropWhile_suffix _ _) hwne, List.getLast?_reverse] at hc
  exact dropWhile_head_false c hc

theorem stripWS_idem (l : List Char) : stripWS (stripWS l) = stripWS l := by
  have h1 : (stripWS l).dropWhile isPyWS = stripWS l :=
    dropWhile_eq_self_of_head (stripWS_head_false l)
  conv_lhs => rw [stripWS]
  rw [h1]
  have h2 : (stripWS l).reverse.dropWhile isPyWS = (stripWS l).reverse := by
    apply dropWhile_eq_self_of_head
    intro c hc
    rw [List.head?_reverse, stripWS, List.getLast?_reverse] at hc
    exact dropWhile_head_false c hc
  rw [h2, List.reverse_reverse]

theorem normChars_idem (l : List Char) : normChars (normChars l) = normChars l := by
  have hnul : removeNul (normChars l) = normChars l := by
    rw [removeNul, List.filter_eq_self]
    intro c hc
    simp only [decide_eq_true_eq]
    have hmem : c ∈ collapseWS false (removeNul l) := mem_stripWS hc
    rcases mem_collapseWS hmem with h | h
    · subst h; decide
    · rw [removeNul] at h
      have h2 := List.of_mem_filter h
      simpa using h2
  have hall : ∀ c ∈ normChars l, isPyWS c = true → c = ' ' :=
    fun c hc hw => collapseWS_ws_space (mem_stripWS hc) hw
  have hch : List.Chain' noTwoWS (normChars l) :=
    chain_stripWS (collapseWS_chain false _)
  have hcol : collapseWS false (normChars l) = normChars l := (collapseWS_fix hall hch).1
  show stripWS (collapseWS false (removeNul (normChars l))) = normChars l
  rw [hnul, hcol]
  exact stripWS_idem (collapseWS false (removeNul l))

/-- Claim C6: text normalization (remove NUL bytes, collapse every
whitespace run to a single space, trim) is idempotent:
`normalize(normalize(s)) == normalize(s)` for every string `s`. -/
theorem claim_C6 (s : String) : pyNorm (pyNorm s) = pyNorm s :=
  congrArg String.mk (normChars_idem s.data)
